import Mathlib

/-!
Shallow embedding of the annotation-resolution engine of src/ensembl.py:
the retrying fetch client (retry_get), the provider adapters' payload
parsing (get_go_xrefs, get_go_terms_from_uniprot, get_go_terms_from_ncbi,
get_uniprot_id_from_ensembl), the merge engine (merge_go_maps), the batch
orchestrator (annotate_ensembl_ids) and the /annotate endpoint's
compatibility view (_choose_preferred_symbol, _build_compat shape).

Network transport and JSON decoding are abstracted as oracle functions
(a transport maps the attempt number to an exception or a status code; a
provider environment maps inputs to decoded results or a raised
exception).  Everything downstream of the decoded payload follows the
Python source line by line.  Machine floats appear only as the backoff
seconds 1.0, 2.0, 4.0, ... which are exact powers of two, modelled as Nat.
-/

namespace EnsemblAnnot

/-! ### Python string helpers

All string operations are implemented by structural recursion over the
underlying character list, so that every definition evaluates inside the
kernel on concrete inputs. -/

/-- Python str.upper on ASCII strings (src uses it on GO ids and db names). -/
def upperStr (s : String) : String := ⟨s.data.map Char.toUpper⟩

/-- Python str.strip(): remove leading and trailing whitespace. -/
def pyStrip (s : String) : String :=
  ⟨((s.data.dropWhile Char.isWhitespace).reverse.dropWhile Char.isWhitespace).reverse⟩

/-- Python s.startswith(pre). -/
def listPrefixOf : List Char → List Char → Bool
  | [], _ => true
  | _ :: _, [] => false
  | a :: as, b :: bs => a == b && listPrefixOf as bs

/-- Python s.startswith(pre) on strings. -/
def startsWithB (s pre : String) : Bool := listPrefixOf pre.data s.data

/-- Python sep.join(parts). -/
def joinSep (sep : String) : List String → String
  | [] => ""
  | [s] => s
  | s :: t => s ++ sep ++ joinSep sep t

/-- Python `x or ""` on an optional string: None becomes "". -/
def optStr (o : Option String) : String := o.getD ""

/-- Python truthiness filter for optional strings: None and "" are falsy. -/
def truthy : Option String → Option String
  | some s => if s = "" then none else some s
  | none => none

/-- Python `a or b or c ...` over optional strings: the first truthy value
(when every operand is falsy the chain's value is falsy, which every use
site treats the same as None). -/
def firstTruthyStr : List (Option String) → Option String
  | [] => none
  | o :: t =>
    match truthy o with
    | some s => some s
    | none => firstTruthyStr t

/-- Lexicographic (code-point) less-or-equal on character lists: the order
Python uses to compare and sort strings. -/
def lexLe : List Char → List Char → Bool
  | [], _ => true
  | _ :: _, [] => false
  | a :: as, b :: bs =>
    if a.toNat < b.toNat then true
    else if b.toNat < a.toNat then false
    else lexLe as bs

/-- Python string comparison s1 <= s2. -/
def strLe (a b : String) : Bool := lexLe a.data b.data

/-- strLe as a relation, for use with sorting predicates. -/
abbrev strLeProp (a b : String) : Prop := strLe a b = true

/-- Python sorted() on a list of strings, ascending lexicographic
(code-point) order; on duplicate-free lists any comparison sort agrees
with it, insertion sort is used here. -/
def sortStr (l : List String) : List String := l.insertionSort strLeProp

/-- Bool test: the first list occurs as a contiguous sublist of the second. -/
def listInfixOf : List Char → List Char → Bool
  | needle, [] => needle.isEmpty
  | needle, c :: t => listPrefixOf needle (c :: t) || listInfixOf needle t

/-- Python `needle in hay` on strings (substring containment). -/
def strContains (hay needle : String) : Bool := listInfixOf needle.toList hay.toList

/-! ### Module-level configuration constants (src/ensembl.py 27-34) -/

def MAX_RETRIES : Nat := 5
def MAX_IDS : Nat := 200
def ENABLE_UNIPROT_FALLBACK : Bool := true
def ENABLE_NCBI_FALLBACK : Bool := true

/-! ### Resilient fetch client: retry_get (src/ensembl.py 40-57) -/

/-- Outcome of one transport attempt: a raised requests.RequestException or
a returned response, carrying its HTTP status code (the only response field
the retry loop inspects). -/
inductive Attempt where
  | exn : Attempt
  | resp (status : Nat) : Attempt
  deriving DecidableEq

/-- The retry loop of retry_get.  fuel counts the remaining iterations of
`for attempt in range(max_tries)`; backoff is the current backoff value
(1, 2, 4, ...); sleeps records every time.sleep(backoff) performed, in
order.  The first component of the result is some status when a response
is returned to the caller and none when the loop exhausts and the
RuntimeError ("Failed to GET ... after N attempts") is raised. -/
def retryGetAux (transport : Nat → Attempt) :
    Nat → Nat → Nat → List Nat → Option Nat × List Nat
  | _, 0, _, sleeps => (none, sleeps)
  | attempt, Nat.succ fuel, backoff, sleeps =>
    match transport attempt with
    | Attempt.exn =>
      retryGetAux transport (attempt + 1) fuel (backoff * 2) (sleeps ++ [backoff])
    | Attempt.resp s =>
      if s = 200 then (some s, sleeps)
      else if s = 429 ∨ s = 503 then
        retryGetAux transport (attempt + 1) fuel (backoff * 2) (sleeps ++ [backoff])
      else (some s, sleeps)

/-- retry_get (src/ensembl.py 40-57), with the HTTP GET abstracted into a
transport oracle indexed by the attempt number. -/
def retry_get (transport : Nat → Attempt) (max_tries : Nat) : Option Nat × List Nat :=
  retryGetAux transport 0 max_tries 1 []

/-! ### Provider adapters: payload parsing -/

/-- One item of the Ensembl /xrefs/id JSON array, restricted to the keys
get_go_xrefs reads; a missing key is none. -/
structure EnsemblXref where
  dbname : Option String
  db_display_name : Option String
  primary_id : Option String
  id : Option String
  display_id : Option String
  description : Option String
  deriving DecidableEq

/-- The parsing loop of get_go_xrefs (src/ensembl.py 107-117), applied to
the decoded JSON items (transport, non-200 handling and JSON decoding are
upstream and yield [] on failure).  Each loop iteration appends at most
one (go_id, description) pair, so the loop is a filterMap. -/
def get_go_xrefs (items : List EnsemblXref) : List (String × String) :=
  items.filterMap (fun it =>
    let dbname := upperStr (optStr it.dbname)
    let db_display := upperStr (optStr it.db_display_name)
    if strContains dbname "GO" || strContains db_display "GO"
        || (dbname == "GENE_ONTOLOGY") then
      match firstTruthyStr [it.primary_id, it.id, it.display_id] with
      | some gid =>
        some (pyStrip gid, optStr (firstTruthyStr [it.description, it.display_id]))
      | none => none
    else none)

/-- One entry of uniProtKBCrossReferences (or dbReferences), restricted to
the keys get_go_terms_from_uniprot reads.  properties is modelled in its
list-of-(key,value) shape; the legacy dict-shaped properties variant of
the source degrades to an empty description or a swallowed exception and
is not modelled. -/
structure UniprotXref where
  database : Option String
  type : Option String
  id : Option String
  properties : List (String × String)
  deriving DecidableEq

/-- The description scan of get_go_terms_from_uniprot (src/ensembl.py
282-287): first property whose key is GoTerm or term, else "". -/
def descFromProps : List (String × String) → String
  | [] => ""
  | kv :: t => if kv.1 = "GoTerm" ∨ kv.1 = "term" then kv.2 else descFromProps t

/-- The parsing loop of get_go_terms_from_uniprot (src/ensembl.py 264-292)
applied to the decoded cross-reference entries. -/
def get_go_terms_from_uniprot (xrefs : List UniprotXref) : List (String × String) :=
  xrefs.filterMap (fun x =>
    let dbname := optStr (firstTruthyStr [x.database, x.type])
    if upperStr dbname = "GO" then
      match truthy x.id with
      | some go_id =>
        if startsWithB (upperStr go_id) "GO:" then
          some (pyStrip go_id, descFromProps x.properties)
        else none
      | none => none
    else none)

/-- One term object inside the NCBI esummary go_component / go_function /
go_process arrays; value is none when the "value" key is missing (the
source also skips non-dict entries, which have no counterpart here). -/
structure NcbiTerm where
  value : Option String
  label : Option String
  deriving DecidableEq

/-- Per-field term collection of get_go_terms_from_ncbi. -/
def ncbiField (terms : List NcbiTerm) : List (String × String) :=
  terms.filterMap (fun t =>
    match t.value with
    | some go_id => if startsWithB go_id "GO:" then some (go_id, optStr t.label) else none
    | none => none)

/-- The parsing loop of get_go_terms_from_ncbi (src/ensembl.py 365-376):
the three summary fields are scanned in the fixed order go_component,
go_function, go_process. -/
def get_go_terms_from_ncbi (comp func proc : List NcbiTerm) : List (String × String) :=
  ncbiField comp ++ ncbiField func ++ ncbiField proc

/-- The four fallback search query strings of get_uniprot_id_from_ensembl
(src/ensembl.py 205-210), in loop order; each is built from the Ensembl
identifier alone. -/
def uniprot_search_queries (ensembl_id : String) : List String :=
  ["xref:Ensembl:" ++ ensembl_id,
   "xref:ensembl-" ++ ensembl_id,
   "database:ensembl AND " ++ ensembl_id,
   "gene:" ++ ensembl_id]

/-- First some in a list of optionals (the `if accession: return accession`
loop over search queries). -/
def firstSomeStr : List (Option String) → Option String
  | [] => none
  | some s :: _ => some s
  | none :: t => firstSomeStr t

/-- get_uniprot_id_from_ensembl (src/ensembl.py 167-229).  The idmapping
pipeline (retry_post run + poll + results + candidate extraction, any
failure or exception swallowed) is abstracted into an oracle returning the
candidate accession or none; each uniprotkb/search request is abstracted
into an oracle from the query string to the extracted accession or none.
Falsy ("" or absent) candidates are skipped exactly as the source's
truthiness tests do. -/
def get_uniprot_id_from_ensembl (idmapping search : String → Option String)
    (ensembl_id : String) : Option String :=
  if ENABLE_UNIPROT_FALLBACK = false ∨ ensembl_id = "" then none
  else
    match truthy (idmapping ensembl_id) with
    | some c => some c
    | none =>
      firstSomeStr ((uniprot_search_queries ensembl_id).map (fun q => truthy (search q)))

/-! ### Merge engine: merge_go_maps (src/ensembl.py 385-405) -/

/-- State built by the merge_go_maps loop: the set of GO ids and the map
go_id -> set of descriptions.  Python's unordered set/dict are modelled as
duplicate-free lists in insertion order; every observation the program
makes of them goes through sorted(). -/
structure GoMaps where
  ids : List String
  descs : List (String × List String)
  deriving DecidableEq

/-- Set insertion (s.add(x)) on the duplicate-free-list model of a set. -/
def insertSet (x : String) (s : List String) : List String :=
  if x ∈ s then s else s ++ [x]

/-- Dict lookup on an association list (first matching key). -/
def lookupA {β : Type} (g : String) : List (String × β) → Option β
  | [] => none
  | kv :: t => if kv.1 = g then some kv.2 else lookupA g t

/-- Dict update of an existing key on an association list. -/
def updateA {β : Type} (g : String) (f : β → β) : List (String × β) → List (String × β)
  | [] => []
  | kv :: t => if kv.1 = g then (kv.1, f kv.2) :: t else kv :: updateA g f t

/-- The description-map part of one merge_go_maps iteration (src/ensembl.py
401-404): create the id's description set if absent, then add the stripped
description when truthy. -/
def addDescs (g d : String) (descs : List (String × List String)) :
    List (String × List String) :=
  let descs1 := if (lookupA g descs).isSome then descs else descs ++ [(g, [])]
  if pyStrip d = "" then descs1 else updateA g (insertSet (pyStrip d)) descs1

/-- One iteration of the merge_go_maps inner loop (src/ensembl.py 396-404):
skip falsy ids, uppercase the id, add it to the id set and maintain the
description map. -/
def addTerm (st : GoMaps) (p : String × String) : GoMaps :=
  if p.1 = "" then st
  else ⟨insertSet (upperStr p.1) st.ids, addDescs (upperStr p.1) p.2 st.descs⟩

/-- merge_go_maps (src/ensembl.py 385-405), at its only call arity of three
source lists; empty lists are skipped by the source loop, which a fold
over the concatenation reproduces. -/
def merge_go_maps (l1 l2 l3 : List (String × String)) : GoMaps :=
  (l1 ++ l2 ++ l3).foldl addTerm ⟨[], []⟩

/-- The merged description strings of annotate_ensembl_ids line 525:
each id's description set, sorted and joined with "; ". -/
def mergedDescStrings (descs : List (String × List String)) : List (String × String) :=
  descs.map (fun kv => (kv.1, joinSep "; " (sortStr kv.2)))

/-! ### Batch orchestrator: annotate_ensembl_ids (src/ensembl.py 408-568) -/

/-- Per-source record built at src/ensembl.py 504-517 (the "sources"
entries of one annotation); the ensembl entry has no id key, modelled as
the constant "". -/
structure SourceRec where
  id : String
  symbol : String
  go : List (String × String)
  deriving DecidableEq

/-- One entry of the "annotations" array (src/ensembl.py 532-543).  The
merged go_descriptions dict is modelled as an association list in dict
insertion order. -/
structure Annot where
  ensembl_id : String
  ensembl : SourceRec
  uniprot : SourceRec
  ncbi : SourceRec
  merged_go_ids : List String
  merged_go_descriptions : List (String × String)
  deriving DecidableEq

/-- The provider helper calls made per identifier by annotate_ensembl_ids,
abstracted as oracles.  Except.error models a raised exception (every call
site wraps the helper in try/except); Except.ok carries the helper's
return value. -/
structure Providers where
  geneSymbol : String → Except Unit (Option String)
  goXrefs : String → Except Unit (List (String × String))
  uniprotId : String → Except Unit (Option String)
  uniprotSymbol : String → Except Unit (Option String)
  uniprotGos : String → Except Unit (List (String × String))
  ncbiId : String → Except Unit (Option String)
  ncbiSymbol : String → Except Unit (Option String)
  ncbiGos : String → Except Unit (List (String × String))

/-- Python `try: v = call() except Exception: v = dflt`. -/
def pyTry {α : Type} (dflt : α) : Except Unit α → α
  | Except.ok v => v
  | Except.error _ => dflt

/-- The per-source go list normalisation of src/ensembl.py 506, 511, 516:
[(str(gid).upper(), desc or "") for gid, desc in gos]. -/
def upGo (l : List (String × String)) : List (String × String) :=
  l.map (fun p => (upperStr p.1, p.2))

/-- One iteration of the main loop of annotate_ensembl_ids (src/ensembl.py
441-545): query Ensembl, then UniProt and NCBI when enabled and a native
key was obtained, degrade every failure to empty/absent, build the three
source records and the merged view. -/
def annotateOne (env : Providers) (enid : String) : Annot :=
  let en_symbol := pyTry none (env.geneSymbol enid)
  let en_gos := pyTry [] (env.goXrefs enid)
  let up_id := if ENABLE_UNIPROT_FALLBACK then truthy (pyTry none (env.uniprotId enid)) else none
  let up_symbol :=
    match up_id with
    | some u => pyTry none (env.uniprotSymbol u)
    | none => none
  let up_gos :=
    match up_id with
    | some u => pyTry [] (env.uniprotGos u)
    | none => []
  let nc_id := if ENABLE_NCBI_FALLBACK then truthy (pyTry none (env.ncbiId enid)) else none
  let nc_symbol :=
    match nc_id with
    | some u => pyTry none (env.ncbiSymbol u)
    | none => none
  let nc_gos :=
    match nc_id with
    | some u => pyTry [] (env.ncbiGos u)
    | none => []
  let srcE : SourceRec := ⟨"", optStr en_symbol, upGo en_gos⟩
  let srcU : SourceRec := ⟨optStr up_id, optStr up_symbol, upGo up_gos⟩
  let srcN : SourceRec := ⟨optStr nc_id, optStr nc_symbol, upGo nc_gos⟩
  let m := merge_go_maps srcE.go srcU.go srcN.go
  { ensembl_id := enid, ensembl := srcE, uniprot := srcU, ncbi := srcN,
    merged_go_ids := sortStr m.ids,
    merged_go_descriptions := mergedDescStrings m.descs }

/-- Input sanitation of src/ensembl.py 430-431: strip, drop falsy/blank
entries, truncate to MAX_IDS. -/
def sanitize_ids (id_list : List String) : List String :=
  ((id_list.filter (fun x => x != "" && pyStrip x != "")).map (fun x => pyStrip x)).take MAX_IDS

/-- The result dict of annotate_ensembl_ids (src/ensembl.py 548-566),
without the constant/meta-only fields (version, timestamp, fetch counts).
The loop-accumulated global sets gene_symbols_seen and all_go_ids_global
are modelled as the sorted deduplication of the concatenated per-iteration
contributions, which is what sorted(set) observes of them. -/
structure AnnotRes where
  anns : List Annot
  gene_symbols : List String
  go_ids : List String
  count_input : Nat
  count_processed : Nat
  deriving DecidableEq

/-- annotate_ensembl_ids (src/ensembl.py 408-568). -/
def annotate_ensembl_ids (env : Providers) (id_list : List String) : AnnotRes :=
  let ids := sanitize_ids id_list
  let anns := ids.map (annotateOne env)
  { anns := anns,
    gene_symbols :=
      sortStr ((((anns.map (fun a => [a.ensembl.symbol, a.uniprot.symbol, a.ncbi.symbol])).flatten.filter
        (fun s => s != "" && pyStrip s != "")).map (fun s => pyStrip s)).dedup),
    go_ids := sortStr (((anns.map (fun a => a.merged_go_ids)).flatten).dedup),
    count_input := id_list.length,
    count_processed := ids.length }

/-! ### Endpoint-side view: preferred symbol and compatibility shape
(src/ensembl.py 594-628, 631-685) -/

/-- _choose_preferred_symbol (src/ensembl.py 594-600): scan the fixed key
order ensembl, uniprot, ncbi and return the first symbol that is a truthy
string with truthy strip, stripped; else "". -/
def _choose_preferred_symbol (e u n : SourceRec) : String :=
  if pyStrip e.symbol ≠ "" then pyStrip e.symbol
  else if pyStrip u.symbol ≠ "" then pyStrip u.symbol
  else if pyStrip n.symbol ≠ "" then pyStrip n.symbol
  else ""

/-- The compatibility annotation of _build_compat_annotation
(src/ensembl.py 603-628): the shallow-copied annotation plus the three
added keys gene_symbol, go_ids, go_terms. -/
structure CompatAnnot where
  ann : Annot
  gene_symbol : String
  go_ids : List String
  go_terms : List String
  deriving DecidableEq

/-- _build_compat_annotation (src/ensembl.py 603-628); desc_map.get(gid, "")
is lookup with default "". -/
def build_compat_annot (a : Annot) : CompatAnnot :=
  { ann := a,
    gene_symbol := _choose_preferred_symbol a.ensembl a.uniprot a.ncbi,
    go_ids := a.merged_go_ids,
    go_terms := a.merged_go_ids.map (fun gid => optStr (lookupA gid a.merged_go_descriptions)) }

/-- The two 400 responses of the /annotate endpoint (src/ensembl.py
665-669): no ids supplied, or more than MAX_IDS supplied. -/
inductive AnnErr where
  | noIds : AnnErr
  | tooMany : AnnErr
  deriving DecidableEq

/-- The compatibility result: the annotate_ensembl_ids result with each
annotation replaced by its compatibility shape (src/ensembl.py 676-685). -/
structure CompatRes where
  anns : List CompatAnnot
  gene_symbols : List String
  go_ids : List String
  count_input : Nat
  count_processed : Nat
  deriving DecidableEq

/-- The /annotate endpoint body (src/ensembl.py 665-685) from the point
where the ordered id list has been collected from the request: validate,
run the core, build the compatibility view. -/
def annotate (env : Providers) (ids : List String) : Except AnnErr CompatRes :=
  if ids.isEmpty then Except.error AnnErr.noIds
  else if MAX_IDS < ids.length then Except.error AnnErr.tooMany
  else
    let r := annotate_ensembl_ids env ids
    Except.ok
      { anns := r.anns.map build_compat_annot,
        gene_symbols := r.gene_symbols, go_ids := r.go_ids,
        count_input := r.count_input, count_processed := r.count_processed }

/-- The annotations of an endpoint result, [] on an error response. -/
def compatAnnsOf (e : Except AnnErr CompatRes) : List CompatAnnot :=
  match e with
  | Except.ok r => r.anns
  | Except.error _ => []

/-- Whether an endpoint call produced a 200-style JSON result. -/
def isOkE (e : Except AnnErr CompatRes) : Bool :=
  match e with
  | Except.ok _ => true
  | Except.error _ => false

/-- The GO id shape GO:\d+ of the specification's data model: the literal
prefix GO: followed by one or more decimal digits. -/
def goShape (s : String) : Bool :=
  match s.data with
  | 'G' :: 'O' :: ':' :: rest => !rest.isEmpty && rest.all Char.isDigit
  | _ => false

/-! ### Auxiliary definitions used by the verification -/

/-- x is one of the recorded descriptions for id g in a description map. -/
def memDesc (descs : List (String × List String)) (g x : String) : Prop :=
  ∃ ds, lookupA g descs = some ds ∧ x ∈ ds

/-- The pairs of the three source lists, in merge order. -/
def allPairs (l1 l2 l3 : List (String × String)) : List (String × String) :=
  l1 ++ l2 ++ l3

/-- The exact sequence of backoff values slept by a run of the retry loop
whose every attempt fails with a retryable outcome: fuel values starting at
backoff and doubling. -/
def backoffs : Nat → Nat → List Nat
  | 0, _ => []
  | fuel + 1, b => b :: backoffs fuel (b * 2)

/-- A concrete provider environment for witnesses: overlapping GO lists
with mixed-case ids and duplicate descriptions from Ensembl, one shared
and one fresh term from UniProt, a raised exception on each NCBI call. -/
def envDemo : Providers :=
  { geneSymbol := fun _ => Except.ok (some "S1"),
    goXrefs := fun _ => Except.ok [("GO:2", "b"), ("go:1", "a"), ("GO:2", " c ")],
    uniprotId := fun _ => Except.ok (some "U1"),
    uniprotSymbol := fun _ => Except.ok (some ""),
    uniprotGos := fun _ => Except.ok [("GO:1", "a"), ("GO:3", "")],
    ncbiId := fun _ => Except.ok none,
    ncbiSymbol := fun _ => Except.error (),
    ncbiGos := fun _ => Except.error () }

/-- A provider environment in which every helper call raises (as when every
transport attempt fails and retry_get raises its RuntimeError). -/
def envErr : Providers :=
  { geneSymbol := fun _ => Except.error (), goXrefs := fun _ => Except.error (),
    uniprotId := fun _ => Except.error (), uniprotSymbol := fun _ => Except.error (),
    uniprotGos := fun _ => Except.error (), ncbiId := fun _ => Except.error (),
    ncbiSymbol := fun _ => Except.error (), ncbiGos := fun _ => Except.error () }

/-! ### Properties of the string order and of sorted() -/

theorem lexLe_total : ∀ as bs : List Char, lexLe as bs = true ∨ lexLe bs as = true
  | [], _ => Or.inl rfl
  | _ :: _, [] => Or.inr rfl
  | a :: as, b :: bs => by
    by_cases h1 : a.toNat < b.toNat
    · left; simp [lexLe, h1]
    · by_cases h2 : b.toNat < a.toNat
      · right; simp [lexLe, h2]
      · rcases lexLe_total as bs with h | h
        · left; simp [lexLe, h1, h2, h]
        · right; simp [lexLe, h1, h2, h]

theorem lexLe_trans : ∀ as bs cs : List Char,
    lexLe as bs = true → lexLe bs cs = true → lexLe as cs = true
  | [], _, _, _, _ => rfl
  | _ :: _, [], _, h1, _ => by simp [lexLe] at h1
  | _ :: _, _ :: _, [], _, h2 => by simp [lexLe] at h2
  | a :: as, b :: bs, c :: cs, h1, h2 => by
    unfold lexLe at h1 h2 ⊢
    by_cases hab : a.toNat < b.toNat
    · by_cases hbc : b.toNat < c.toNat
      · simp [Nat.lt_trans hab hbc]
      · by_cases hcb : c.toNat < b.toNat
        · rw [if_neg hbc, if_pos hcb] at h2; simp at h2
        · simp [show a.toNat < c.toNat by omega]
    · by_cases hba : b.toNat < a.toNat
      · rw [if_neg hab, if_pos hba] at h1; simp at h1
      · rw [if_neg hab, if_neg hba] at h1
        by_cases hbc : b.toNat < c.toNat
        · simp [show a.toNat < c.toNat by omega]
        · by_cases hcb : c.toNat < b.toNat
          · rw [if_neg hbc, if_pos hcb] at h2; simp at h2
          · rw [if_neg hbc, if_neg hcb] at h2
            rw [if_neg (show ¬ a.toNat < c.toNat by omega),
              if_neg (show ¬ c.toNat < a.toNat by omega)]
            exact lexLe_trans as bs cs h1 h2

instance : IsTotal String strLeProp := ⟨fun a b => lexLe_total a.data b.data⟩

instance : IsTrans String strLeProp :=
  ⟨fun a b c h1 h2 => lexLe_trans a.data b.data c.data h1 h2⟩

theorem sortStr_sorted (l : List String) : (sortStr l).Sorted strLeProp :=
  List.sorted_insertionSort strLeProp l

theorem sortStr_perm (l : List String) : List.Perm (sortStr l) l :=
  List.perm_insertionSort strLeProp l

theorem mem_sortStr {g : String} {l : List String} : g ∈ sortStr l ↔ g ∈ l :=
  (sortStr_perm l).mem_iff

theorem sortStr_nodup {l : List String} (h : l.Nodup) : (sortStr l).Nodup :=
  ((sortStr_perm l).nodup_iff).mpr h

/-! ### Properties of the set and dict models -/

theorem mem_insertSet {y x : String} {s : List String} :
    y ∈ insertSet x s ↔ y ∈ s ∨ y = x := by
  unfold insertSet
  by_cases h : x ∈ s
  · rw [if_pos h]
    constructor
    · exact Or.inl
    · rintro (hy | rfl)
      · exact hy
      · exact h
  · rw [if_neg h]; simp

theorem insertSet_nodup {x : String} {s : List String} (h : s.Nodup) :
    (insertSet x s).Nodup := by
  unfold insertSet
  by_cases hx : x ∈ s
  · rwa [if_pos hx]
  · rw [if_neg hx]
    simp [List.nodup_append, h, hx]

theorem lookupA_isSome_iff {β : Type} (g : String) (m : List (String × β)) :
    (lookupA g m).isSome = true ↔ g ∈ m.map Prod.fst := by
  induction m with
  | nil => simp [lookupA]
  | cons kv t ih =>
    by_cases h : kv.1 = g
    · simp [lookupA, h]
    · simp [lookupA, h, ih, Ne.symm h]

theorem lookupA_append_of_none {β : Type} {g : String} {m : List (String × β)}
    (h : lookupA g m = none) (m2 : List (String × β)) :
    lookupA g (m ++ m2) = lookupA g m2 := by
  induction m with
  | nil => simp
  | cons kv t ih =>
    by_cases hk : kv.1 = g
    · simp [lookupA, hk] at h
    · simp only [List.cons_append, lookupA, if_neg hk] at h ⊢
      exact ih h

theorem lookupA_append_of_some {β : Type} {g : String} {m : List (String × β)}
    {ds : β} (h : lookupA g m = some ds) (m2 : List (String × β)) :
    lookupA g (m ++ m2) = some ds := by
  induction m with
  | nil => simp [lookupA] at h
  | cons kv t ih =>
    by_cases hk : kv.1 = g
    · simp only [lookupA, if_pos hk] at h
      simp only [List.cons_append, lookupA, if_pos hk]
      exact h
    · simp only [lookupA, if_neg hk] at h
      simp only [List.cons_append, lookupA, if_neg hk]
      exact ih h

theorem lookupA_updateA_self {β : Type} (g : String) (f : β → β)
    (m : List (String × β)) :
    lookupA g (updateA g f m) = (lookupA g m).map f := by
  induction m with
  | nil => simp [lookupA, updateA]
  | cons kv t ih =>
    by_cases hk : kv.1 = g
    · simp [lookupA, updateA, hk]
    · simp [lookupA, updateA, hk, ih]

theorem lookupA_updateA_ne {β : Type} {g2 g : String} (hne : g2 ≠ g) (f : β → β)
    (m : List (String × β)) :
    lookupA g2 (updateA g f m) = lookupA g2 m := by
  induction m with
  | nil => simp [updateA]
  | cons kv t ih =>
    by_cases hk : kv.1 = g
    · have hk2 : kv.1 ≠ g2 := by rw [hk]; exact fun hh => hne hh.symm
      simp [updateA, lookupA, hk, hk2, Ne.symm hne]
    · by_cases hk2 : kv.1 = g2
      · simp [updateA, lookupA, hk, hk2, hne]
      · simp [updateA, lookupA, hk, hk2, hne, ih]

theorem updateA_map_fst {β : Type} (g : String) (f : β → β)
    (m : List (String × β)) :
    (updateA g f m).map Prod.fst = m.map Prod.fst := by
  induction m with
  | nil => rfl
  | cons kv t ih =>
    by_cases hk : kv.1 = g <;> simp [updateA, hk, ih]

theorem lookupA_mapValues {β γ : Type} (f : β → γ) (g : String)
    (m : List (String × β)) :
    lookupA g (m.map (fun kv => (kv.1, f kv.2))) = (lookupA g m).map f := by
  induction m with
  | nil => simp [lookupA]
  | cons kv t ih =>
    by_cases hk : kv.1 = g <;> simp [lookupA, hk, ih]

theorem mapValues_map_fst {β γ : Type} (f : β → γ) (m : List (String × β)) :
    (m.map (fun kv => (kv.1, f kv.2))).map Prod.fst = m.map Prod.fst := by
  induction m with
  | nil => rfl
  | cons kv t ih => simp [ih]

theorem mergedDescStrings_map_fst (m : List (String × List String)) :
    (mergedDescStrings m).map Prod.fst = m.map Prod.fst := by
  induction m with
  | nil => rfl
  | cons kv t ih => simp [mergedDescStrings, ih]

theorem lookupA_mergedDescStrings (g : String) (m : List (String × List String)) :
    lookupA g (mergedDescStrings m) =
      (lookupA g m).map (fun ds => joinSep "; " (sortStr ds)) := by
  induction m with
  | nil => simp [mergedDescStrings, lookupA]
  | cons kv t ih =>
    have hcons : mergedDescStrings (kv :: t) =
        (kv.1, joinSep "; " (sortStr kv.2)) :: mergedDescStrings t := rfl
    rw [hcons]
    by_cases hk : kv.1 = g <;> simp [lookupA, hk, ih]

/-! ### Invariants of the merge_go_maps fold -/

theorem addDescs_lookup_self (g d : String) (descs : List (String × List String)) :
    lookupA g (addDescs g d descs) =
      some (if pyStrip d = "" then (lookupA g descs).getD []
        else insertSet (pyStrip d) ((lookupA g descs).getD [])) := by
  unfold addDescs
  rcases hlk : lookupA g descs with _ | ds
  · have hbase : lookupA g (descs ++ [(g, [])]) = some [] := by
      rw [lookupA_append_of_none hlk]
      simp [lookupA]
    by_cases hd : pyStrip d = "" <;>
      simp [hlk, hd, hbase, lookupA_updateA_self]
  · by_cases hd : pyStrip d = "" <;>
      simp [hlk, hd, lookupA_updateA_self]

theorem addDescs_lookup_ne {g2 g : String} (hne : g2 ≠ g) (d : String)
    (descs : List (String × List String)) :
    lookupA g2 (addDescs g d descs) = lookupA g2 descs := by
  unfold addDescs
  have hbase : lookupA g2 (descs ++ [(g, [])]) = lookupA g2 descs := by
    rcases hlk2 : lookupA g2 descs with _ | ds2
    · rw [lookupA_append_of_none hlk2]
      simp [lookupA, Ne.symm hne]
    · exact lookupA_append_of_some hlk2 _
  rcases hlk : lookupA g descs with _ | ds <;>
    by_cases hd : pyStrip d = "" <;>
    simp [hlk, hd, hbase, lookupA_updateA_ne hne]

theorem addDescs_map_fst (g d : String) (descs : List (String × List String)) :
    (addDescs g d descs).map Prod.fst =
      if (lookupA g descs).isSome then descs.map Prod.fst
      else descs.map Prod.fst ++ [g] := by
  unfold addDescs
  by_cases hs : (lookupA g descs).isSome
  · by_cases hd : pyStrip d = "" <;> simp [hs, hd, updateA_map_fst]
  · by_cases hd : pyStrip d = "" <;> simp [hs, hd, updateA_map_fst]

theorem addDescs_nodup (g d : String) (descs : List (String × List String))
    (h : ∀ g2 ds, lookupA g2 descs = some ds → ds.Nodup) :
    ∀ g2 ds, lookupA g2 (addDescs g d descs) = some ds → ds.Nodup := by
  intro g2 ds hds
  by_cases hg : g2 = g
  · subst hg
    rw [addDescs_lookup_self] at hds
    have hds0 : ((lookupA g2 descs).getD []).Nodup := by
      rcases hlk : lookupA g2 descs with _ | ds0
      · simp
      · simpa using h g2 ds0 hlk
    by_cases hd : pyStrip d = ""
    · rw [if_pos hd] at hds
      cases hds; exact hds0
    · rw [if_neg hd] at hds
      cases hds; exact insertSet_nodup hds0
  · rw [addDescs_lookup_ne hg] at hds
    exact h g2 ds hds

theorem addTerm_ids_mem (st : GoMaps) (p : String × String) (g : String) :
    g ∈ (addTerm st p).ids ↔ g ∈ st.ids ∨ (p.1 ≠ "" ∧ upperStr p.1 = g) := by
  unfold addTerm
  by_cases h : p.1 = ""
  · simp [h]
  · rw [if_neg h]
    show g ∈ insertSet (upperStr p.1) st.ids ↔ _
    rw [mem_insertSet]
    constructor
    · rintro (hg | rfl)
      · exact Or.inl hg
      · exact Or.inr ⟨h, rfl⟩
    · rintro (hg | ⟨-, rfl⟩)
      · exact Or.inl hg
      · exact Or.inr rfl

theorem addTerm_ids_nodup (st : GoMaps) (p : String × String)
    (h : st.ids.Nodup) : (addTerm st p).ids.Nodup := by
  unfold addTerm
  by_cases hp : p.1 = ""
  · simpa [hp]
  · rw [if_neg hp]
    exact insertSet_nodup h

theorem addTerm_keys (st : GoMaps) (p : String × String)
    (h : st.descs.map Prod.fst = st.ids) :
    (addTerm st p).descs.map Prod.fst = (addTerm st p).ids := by
  unfold addTerm
  by_cases hp : p.1 = ""
  · simpa [hp]
  · rw [if_neg hp]
    show (addDescs (upperStr p.1) p.2 st.descs).map Prod.fst
      = insertSet (upperStr p.1) st.ids
    rw [addDescs_map_fst, h]
    unfold insertSet
    by_cases hmem : upperStr p.1 ∈ st.ids
    · rw [if_pos hmem, if_pos ((lookupA_isSome_iff _ _).mpr (h ▸ hmem))]
    · rw [if_neg hmem, if_neg ?past]
      case past =>
        intro hsome
        exact hmem (h ▸ (lookupA_isSome_iff _ _).mp hsome)

theorem addDescs_memDesc (g d : String) (descs : List (String × List String))
    (g2 x : String) :
    memDesc (addDescs g d descs) g2 x ↔
      memDesc descs g2 x ∨ (g2 = g ∧ pyStrip d ≠ "" ∧ x = pyStrip d) := by
  by_cases hg : g2 = g
  · subst hg
    unfold memDesc
    rw [addDescs_lookup_self]
    simp only [Option.some.injEq]
    constructor
    · rintro ⟨ds2, hds2, hx⟩
      subst hds2
      by_cases hd : pyStrip d = ""
      · rw [if_pos hd] at hx
        rcases hlk : lookupA g2 descs with _ | ds0
        · rw [hlk] at hx; simp at hx
        · rw [hlk] at hx; exact Or.inl ⟨ds0, rfl, by simpa using hx⟩
      · rw [if_neg hd, mem_insertSet] at hx
        rcases hx with hx | rfl
        · rcases hlk : lookupA g2 descs with _ | ds0
          · rw [hlk] at hx; simp at hx
          · rw [hlk] at hx; exact Or.inl ⟨ds0, rfl, by simpa using hx⟩
        · exact Or.inr ⟨trivial, hd, rfl⟩
    · rintro (⟨ds0, hds0, hx⟩ | ⟨-, hd, rfl⟩)
      · refine ⟨_, rfl, ?_⟩
        rw [hds0]
        by_cases hd : pyStrip d = ""
        · rw [if_pos hd]; simpa using hx
        · rw [if_neg hd, mem_insertSet]
          exact Or.inl (by simpa using hx)
      · refine ⟨_, rfl, ?_⟩
        rw [if_neg hd, mem_insertSet]
        exact Or.inr rfl
  · unfold memDesc
    rw [addDescs_lookup_ne hg]
    constructor
    · exact Or.inl
    · rintro (hh | ⟨hgg, -, -⟩)
      · exact hh
      · exact absurd hgg hg

theorem addTerm_memDesc (st : GoMaps) (p : String × String) (g x : String) :
    memDesc (addTerm st p).descs g x ↔
      memDesc st.descs g x ∨
        (p.1 ≠ "" ∧ upperStr p.1 = g ∧ pyStrip p.2 ≠ "" ∧ x = pyStrip p.2) := by
  unfold addTerm
  by_cases hp : p.1 = ""
  · simp [hp]
  · rw [if_neg hp]
    show memDesc (addDescs (upperStr p.1) p.2 st.descs) g x ↔ _
    rw [addDescs_memDesc]
    constructor
    · rintro (h | ⟨rfl, hd, rfl⟩)
      · exact Or.inl h
      · exact Or.inr ⟨hp, rfl, hd, rfl⟩
    · rintro (h | ⟨-, rfl, hd, rfl⟩)
      · exact Or.inl h
      · exact Or.inr ⟨rfl, hd, rfl⟩

theorem addTerm_descs_nodup (st : GoMaps) (p : String × String)
    (h : ∀ g ds, lookupA g st.descs = some ds → ds.Nodup) :
    ∀ g ds, lookupA g (addTerm st p).descs = some ds → ds.Nodup := by
  unfold addTerm
  by_cases hp : p.1 = ""
  · simpa [hp]
  · rw [if_neg hp]
    exact addDescs_nodup _ _ _ h

theorem foldl_addTerm_ids_mem :
    ∀ (l : List (String × String)) (st : GoMaps) (g : String),
      g ∈ (l.foldl addTerm st).ids ↔
        g ∈ st.ids ∨ ∃ p ∈ l, p.1 ≠ "" ∧ upperStr p.1 = g
  | [], st, g => by simp
  | p :: t, st, g => by
    rw [List.foldl_cons, foldl_addTerm_ids_mem t (addTerm st p) g, addTerm_ids_mem]
    simp only [List.exists_mem_cons_iff]
    tauto

theorem foldl_addTerm_ids_nodup :
    ∀ (l : List (String × String)) (st : GoMaps),
      st.ids.Nodup → (l.foldl addTerm st).ids.Nodup
  | [], _, h => h
  | p :: t, st, h =>
    foldl_addTerm_ids_nodup t (addTerm st p) (addTerm_ids_nodup st p h)

theorem foldl_addTerm_keys :
    ∀ (l : List (String × String)) (st : GoMaps),
      st.descs.map Prod.fst = st.ids →
      (l.foldl addTerm st).descs.map Prod.fst = (l.foldl addTerm st).ids
  | [], _, h => h
  | p :: t, st, h =>
    foldl_addTerm_keys t (addTerm st p) (addTerm_keys st p h)

theorem foldl_addTerm_memDesc :
    ∀ (l : List (String × String)) (st : GoMaps) (g x : String),
      memDesc (l.foldl addTerm st).descs g x ↔
        memDesc st.descs g x ∨
          ∃ p ∈ l, p.1 ≠ "" ∧ upperStr p.1 = g ∧ pyStrip p.2 ≠ "" ∧ x = pyStrip p.2
  | [], st, g, x => by simp
  | p :: t, st, g, x => by
    rw [List.foldl_cons, foldl_addTerm_memDesc t (addTerm st p) g x, addTerm_memDesc]
    simp only [List.exists_mem_cons_iff]
    tauto

theorem foldl_addTerm_descs_nodup :
    ∀ (l : List (String × String)) (st : GoMaps),
      (∀ g ds, lookupA g st.descs = some ds → ds.Nodup) →
      ∀ g ds, lookupA g (l.foldl addTerm st).descs = some ds → ds.Nodup
  | [], _, h => h
  | p :: t, st, h =>
    foldl_addTerm_descs_nodup t (addTerm st p) (addTerm_descs_nodup st p h)

/-! ### Characterisation of the merged view -/

theorem merge_ids_mem (l1 l2 l3 : List (String × String)) (g : String) :
    g ∈ (merge_go_maps l1 l2 l3).ids ↔
      ∃ p ∈ allPairs l1 l2 l3, p.1 ≠ "" ∧ upperStr p.1 = g := by
  unfold merge_go_maps allPairs
  rw [foldl_addTerm_ids_mem]
  simp

theorem merge_ids_nodup (l1 l2 l3 : List (String × String)) :
    (merge_go_maps l1 l2 l3).ids.Nodup :=
  foldl_addTerm_ids_nodup _ ⟨[], []⟩ List.nodup_nil

theorem merge_keys (l1 l2 l3 : List (String × String)) :
    (merge_go_maps l1 l2 l3).descs.map Prod.fst = (merge_go_maps l1 l2 l3).ids :=
  foldl_addTerm_keys _ ⟨[], []⟩ rfl

theorem merge_memDesc (l1 l2 l3 : List (String × String)) (g x : String) :
    memDesc (merge_go_maps l1 l2 l3).descs g x ↔
      ∃ p ∈ allPairs l1 l2 l3,
        p.1 ≠ "" ∧ upperStr p.1 = g ∧ pyStrip p.2 ≠ "" ∧ x = pyStrip p.2 := by
  unfold merge_go_maps allPairs
  rw [foldl_addTerm_memDesc]
  simp [memDesc, lookupA]

theorem merge_descs_nodup (l1 l2 l3 : List (String × String)) :
    ∀ g ds, lookupA g (merge_go_maps l1 l2 l3).descs = some ds → ds.Nodup :=
  foldl_addTerm_descs_nodup _ ⟨[], []⟩ (by intro g ds h; cases h)

/-! ### Miscellaneous helper lemmas -/

theorem firstSomeStr_eq_none_iff : ∀ l : List (Option String),
    firstSomeStr l = none ↔ ∀ o ∈ l, o = none
  | [] => by simp [firstSomeStr]
  | o :: t => by
    cases o with
    | none => simp [firstSomeStr, firstSomeStr_eq_none_iff t]
    | some s => simp [firstSomeStr]

/-! ### Step lemmas for the retry loop -/

theorem retryGetAux_succ (t : Nat → Attempt) (attempt fuel backoff : Nat)
    (sleeps : List Nat) :
    retryGetAux t attempt (fuel + 1) backoff sleeps =
      match t attempt with
      | Attempt.exn =>
        retryGetAux t (attempt + 1) fuel (backoff * 2) (sleeps ++ [backoff])
      | Attempt.resp s =>
        if s = 200 then (some s, sleeps)
        else if s = 429 ∨ s = 503 then
          retryGetAux t (attempt + 1) fuel (backoff * 2) (sleeps ++ [backoff])
        else (some s, sleeps) := rfl

theorem retryGetAux_retryable (t : Nat → Attempt) (attempt fuel backoff : Nat)
    (sleeps : List Nat) (s : Nat) (h : t attempt = Attempt.resp s)
    (hs : s = 429 ∨ s = 503) :
    retryGetAux t attempt (fuel + 1) backoff sleeps =
      retryGetAux t (attempt + 1) fuel (backoff * 2) (sleeps ++ [backoff]) := by
  have h200 : s ≠ 200 := by rcases hs with rfl | rfl <;> decide
  rw [retryGetAux_succ, h]
  simp [h200, hs]

theorem retryGetAux_exn (t : Nat → Attempt) (attempt fuel backoff : Nat)
    (sleeps : List Nat) (h : t attempt = Attempt.exn) :
    retryGetAux t attempt (fuel + 1) backoff sleeps =
      retryGetAux t (attempt + 1) fuel (backoff * 2) (sleeps ++ [backoff]) := by
  rw [retryGetAux_succ, h]

theorem retryGetAux_success (t : Nat → Attempt) (attempt fuel backoff : Nat)
    (sleeps : List Nat) (h : t attempt = Attempt.resp 200) :
    retryGetAux t attempt (fuel + 1) backoff sleeps = (some 200, sleeps) := by
  rw [retryGetAux_succ, h]
  rfl

theorem retryGetAux_other (t : Nat → Attempt) (attempt fuel backoff : Nat)
    (sleeps : List Nat) (s : Nat) (h : t attempt = Attempt.resp s)
    (h200 : s ≠ 200) (h429 : s ≠ 429) (h503 : s ≠ 503) :
    retryGetAux t attempt (fuel + 1) backoff sleeps = (some s, sleeps) := by
  rw [retryGetAux_succ, h]
  simp [h200, h429, h503]

theorem retryGetAux_all_fail (t : Nat → Attempt)
    (h : ∀ n, t n = Attempt.resp 503 ∨ t n = Attempt.exn) :
    ∀ (fuel attempt backoff : Nat) (sleeps : List Nat),
      retryGetAux t attempt fuel backoff sleeps =
        (none, sleeps ++ backoffs fuel backoff)
  | 0, attempt, backoff, sleeps => by simp [retryGetAux, backoffs]
  | fuel + 1, attempt, backoff, sleeps => by
    have step : retryGetAux t attempt (fuel + 1) backoff sleeps =
        retryGetAux t (attempt + 1) fuel (backoff * 2) (sleeps ++ [backoff]) := by
      rcases h attempt with ha | ha
      · exact retryGetAux_retryable t attempt fuel backoff sleeps 503 ha (Or.inr rfl)
      · exact retryGetAux_exn t attempt fuel backoff sleeps ha
    rw [step, retryGetAux_all_fail t h fuel (attempt + 1) (backoff * 2) (sleeps ++ [backoff])]
    simp [backoffs]

/-! ### Claim C4 -/

/-- C4 (amended): the fetch client retries on transport exceptions and on
status 429 or 503, for at most MAX_RETRIES (5) attempts with exponential
backoff 1, 2, 4, ...; a transport answering 503 twice then 200 succeeds
with exactly the two backoff sleeps 1 and 2; any other non-200 status is
returned immediately with no sleep; but the backoff sleep is performed
after every failed retryable attempt, including the final one, so five
consecutive failures sleep five times (1, 2, 4, 8, 16) before the
exhaustion error is raised. -/
theorem c4_retry_backoff (t : Nat → Attempt) :
    (t 0 = Attempt.resp 503 → t 1 = Attempt.resp 503 → t 2 = Attempt.resp 200 →
      retry_get t MAX_RETRIES = (some 200, [1, 2]))
    ∧ (∀ s, t 0 = Attempt.resp s → s ≠ 200 → s ≠ 429 → s ≠ 503 →
      retry_get t MAX_RETRIES = (some s, []))
    ∧ ((∀ n, t n = Attempt.resp 503 ∨ t n = Attempt.exn) →
      retry_get t MAX_RETRIES = (none, [1, 2, 4, 8, 16])) := by
  refine ⟨?_, ?_, ?_⟩
  · intro h0 h1 h2
    show retryGetAux t 0 (4 + 1) 1 [] = (some 200, [1, 2])
    rw [retryGetAux_retryable t 0 4 1 [] 503 h0 (Or.inr rfl)]
    show retryGetAux t 1 (3 + 1) 2 [1] = (some 200, [1, 2])
    rw [retryGetAux_retryable t 1 3 2 [1] 503 h1 (Or.inr rfl)]
    show retryGetAux t 2 (2 + 1) 4 [1, 2] = (some 200, [1, 2])
    rw [retryGetAux_success t 2 2 4 [1, 2] h2]
  · intro s h0 h200 h429 h503
    show retryGetAux t 0 (4 + 1) 1 [] = (some s, [])
    rw [retryGetAux_other t 0 4 1 [] s h0 h200 h429 h503]
  · intro h
    show retryGetAux t 0 5 1 [] = (none, [1, 2, 4, 8, 16])
    rw [retryGetAux_all_fail t h 5 0 1 []]
    rfl

/-- Counterexample to C4 as stated: the claim asserts that no backoff sleep
happens after the final failed attempt, which would give at most 4 sleeps
for 5 attempts; on the transport that always answers 503 the loop performs
5 sleeps (one after each failed attempt, the last included). -/
theorem c4_counterexample :
    retry_get (fun _ => Attempt.resp 503) MAX_RETRIES = (none, [1, 2, 4, 8, 16])
    ∧ (retry_get (fun _ => Attempt.resp 503) MAX_RETRIES).2.length ≠ 4 := by
  constructor
  · rfl
  · decide

/-- Witness instantiating c4_retry_backoff: the 503/503/200 transport
succeeds with exactly two sleeps. -/
theorem c4_retry_backoff_witness :
    retry_get (fun n => if n = 2 then Attempt.resp 200 else Attempt.resp 503)
      MAX_RETRIES = (some 200, [1, 2]) :=
  (c4_retry_backoff (fun n => if n = 2 then Attempt.resp 200 else Attempt.resp 503)).1
    rfl rfl rfl

/-! ### Claim C5 -/

/-- C5: a transport that answers 503 on every attempt exhausts the retry
budget and retry_get raises (result none) — the loop's only raising exit;
and inside the batch the raised error is recovered locally: with every
provider helper raising, the identifier's record degrades to empty fields
and annotate_ensembl_ids still returns a batch with that one annotation. -/
theorem c5_exhaustion_recovered (t : Nat → Attempt)
    (h : ∀ n, t n = Attempt.resp 503) :
    (retry_get t MAX_RETRIES).1 = none
    ∧ (annotate_ensembl_ids envErr ["E1"]).anns =
        [{ ensembl_id := "E1", ensembl := ⟨"", "", []⟩, uniprot := ⟨"", "", []⟩,
           ncbi := ⟨"", "", []⟩, merged_go_ids := [], merged_go_descriptions := [] }]
    ∧ (annotate_ensembl_ids envErr ["E1"]).count_processed = 1 := by
  refine ⟨?_, by decide, by decide⟩
  show (retryGetAux t 0 5 1 []).1 = none
  rw [retryGetAux_all_fail t (fun n => Or.inl (h n)) 5 0 1 []]

/-- Witness instantiating c5_exhaustion_recovered at the constant-503
transport. -/
theorem c5_exhaustion_recovered_witness :
    (retry_get (fun _ => Attempt.resp 503) MAX_RETRIES).1 = none :=
  (c5_exhaustion_recovered (fun _ => Attempt.resp 503) (fun _ => rfl)).1

/-! ### Claims C1 and C2 -/

theorem annotateOne_merged_eq (env : Providers) (enid : String) :
    (annotateOne env enid).merged_go_ids =
      sortStr (merge_go_maps (annotateOne env enid).ensembl.go
        (annotateOne env enid).uniprot.go (annotateOne env enid).ncbi.go).ids
    ∧ (annotateOne env enid).merged_go_descriptions =
      mergedDescStrings (merge_go_maps (annotateOne env enid).ensembl.go
        (annotateOne env enid).uniprot.go (annotateOne env enid).ncbi.go).descs :=
  ⟨rfl, rfl⟩

theorem mem_anns (env : Providers) (id_list : List String) {a : Annot}
    (ha : a ∈ (annotate_ensembl_ids env id_list).anns) :
    ∃ enid, a = annotateOne env enid := by
  have ha2 : a ∈ (sanitize_ids id_list).map (annotateOne env) := ha
  rcases List.mem_map.mp ha2 with ⟨enid, -, rfl⟩
  exact ⟨enid, rfl⟩

theorem merged_view_spec (l1 l2 l3 : List (String × String)) :
    (sortStr (merge_go_maps l1 l2 l3).ids).Sorted strLeProp
    ∧ (sortStr (merge_go_maps l1 l2 l3).ids).Nodup
    ∧ (∀ g, g ∈ sortStr (merge_go_maps l1 l2 l3).ids ↔
        ∃ p ∈ l1 ++ l2 ++ l3, p.1 ≠ "" ∧ upperStr p.1 = g)
    ∧ (∀ g, g ∈ (mergedDescStrings (merge_go_maps l1 l2 l3).descs).map Prod.fst ↔
        g ∈ sortStr (merge_go_maps l1 l2 l3).ids) := by
  refine ⟨sortStr_sorted _, sortStr_nodup (merge_ids_nodup _ _ _), ?_, ?_⟩
  · intro g
    exact mem_sortStr.trans (merge_ids_mem l1 l2 l3 g)
  · intro g
    have h1 : (mergedDescStrings (merge_go_maps l1 l2 l3).descs).map Prod.fst
        = (merge_go_maps l1 l2 l3).ids := by
      rw [mergedDescStrings_map_fst, merge_keys]
    rw [h1, mem_sortStr]

/-- C1: for every identifier's resolution, the merged go_ids list is sorted
ascending in lexicographic string order, free of duplicates, and its
members are exactly the case-uppercased term ids occurring (with a truthy
id) across the primary, secondary and tertiary source records; the key set
of merged go_descriptions coincides with the go_ids set. -/
theorem c1_merged_ids_union (env : Providers) (id_list : List String)
    (a : Annot) (ha : a ∈ (annotate_ensembl_ids env id_list).anns) :
    a.merged_go_ids.Sorted strLeProp ∧ a.merged_go_ids.Nodup
    ∧ (∀ g, g ∈ a.merged_go_ids ↔
        ∃ p ∈ a.ensembl.go ++ a.uniprot.go ++ a.ncbi.go, p.1 ≠ "" ∧ upperStr p.1 = g)
    ∧ (∀ g, g ∈ a.merged_go_descriptions.map Prod.fst ↔ g ∈ a.merged_go_ids) := by
  rcases mem_anns env id_list ha with ⟨enid, rfl⟩
  exact merged_view_spec (annotateOne env enid).ensembl.go
    (annotateOne env enid).uniprot.go (annotateOne env enid).ncbi.go

/-- Witness for c1_merged_ids_union at a concrete environment with
overlapping, mixed-case GO lists. -/
theorem c1_merged_ids_union_witness :
    (annotateOne envDemo "E1" ∈ (annotate_ensembl_ids envDemo ["E1"]).anns)
    ∧ (annotateOne envDemo "E1").merged_go_ids.Sorted strLeProp
    ∧ (annotateOne envDemo "E1").merged_go_ids.Nodup := by
  have h := c1_merged_ids_union envDemo ["E1"] (annotateOne envDemo "E1") (by decide)
  exact ⟨by decide, h.1, h.2.1⟩

theorem merge_desc_spec (l1 l2 l3 : List (String × String)) (g s : String)
    (hs : lookupA g (mergedDescStrings (merge_go_maps l1 l2 l3).descs) = some s) :
    ∃ L, s = joinSep "; " L ∧ L.Sorted strLeProp ∧ L.Nodup
      ∧ (∀ d, d ∈ L ↔ ∃ p ∈ l1 ++ l2 ++ l3,
          p.1 ≠ "" ∧ upperStr p.1 = g ∧ pyStrip p.2 ≠ "" ∧ d = pyStrip p.2)
      ∧ ((∀ p ∈ l1 ++ l2 ++ l3, upperStr p.1 = g → pyStrip p.2 = "") → s = "") := by
  rw [lookupA_mergedDescStrings] at hs
  rcases hmap : lookupA g (merge_go_maps l1 l2 l3).descs with _ | ds
  · rw [hmap] at hs; cases hs
  · rw [hmap] at hs
    have hval : joinSep "; " (sortStr ds) = s := Option.some.inj hs
    have hiff : ∀ d, d ∈ sortStr ds ↔ ∃ p ∈ l1 ++ l2 ++ l3,
        p.1 ≠ "" ∧ upperStr p.1 = g ∧ pyStrip p.2 ≠ "" ∧ d = pyStrip p.2 := by
      intro d
      have hb : d ∈ sortStr ds ↔ memDesc (merge_go_maps l1 l2 l3).descs g d := by
        rw [mem_sortStr]
        constructor
        · exact fun hd => ⟨ds, hmap, hd⟩
        · rintro ⟨ds2, hlk2, hd⟩
          rw [hmap] at hlk2
          cases hlk2
          exact hd
      exact hb.trans (merge_memDesc l1 l2 l3 g d)
    refine ⟨sortStr ds, hval.symm, sortStr_sorted _,
      sortStr_nodup (merge_descs_nodup l1 l2 l3 g ds hmap), hiff, ?_⟩
    intro hall
    have hnil : sortStr ds = [] := by
      rw [List.eq_nil_iff_forall_not_mem]
      intro d hd
      rcases (hiff d).mp hd with ⟨p, hp, -, hg, hstrip, rfl⟩
      exact hstrip (hall p hp hg)
    rw [← hval, hnil]
    rfl

/-- C2: for every identifier's resolution and every merged term id, the
merged description string is the "; "-join of the sorted, duplicate-free
set of the non-empty stripped descriptions attached to that id across the
three source records; in particular ids whose every occurrence carries an
empty (or whitespace) description map to the empty string. -/
theorem c2_merged_descriptions (env : Providers) (id_list : List String)
    (a : Annot) (ha : a ∈ (annotate_ensembl_ids env id_list).anns)
    (g s : String) (hs : lookupA g a.merged_go_descriptions = some s) :
    ∃ L, s = joinSep "; " L ∧ L.Sorted strLeProp ∧ L.Nodup
      ∧ (∀ d, d ∈ L ↔ ∃ p ∈ a.ensembl.go ++ a.uniprot.go ++ a.ncbi.go,
          p.1 ≠ "" ∧ upperStr p.1 = g ∧ pyStrip p.2 ≠ "" ∧ d = pyStrip p.2)
      ∧ ((∀ p ∈ a.ensembl.go ++ a.uniprot.go ++ a.ncbi.go,
          upperStr p.1 = g → pyStrip p.2 = "") → s = "") := by
  rcases mem_anns env id_list ha with ⟨enid, rfl⟩
  exact merge_desc_spec (annotateOne env enid).ensembl.go
    (annotateOne env enid).uniprot.go (annotateOne env enid).ncbi.go g s hs

/-- Witness for c2_merged_descriptions: in envDemo the id GO:2 collects the
two distinct stripped descriptions b and c, joined as b plus semicolon
space plus c. -/
theorem c2_merged_descriptions_witness :
    lookupA "GO:2" (annotateOne envDemo "E1").merged_go_descriptions = some "b; c"
    ∧ ∃ L, "b; c" = joinSep "; " L ∧ L.Sorted strLeProp ∧ L.Nodup := by
  refine ⟨by decide, ?_⟩
  rcases c2_merged_descriptions envDemo ["E1"] (annotateOne envDemo "E1") (by decide)
      "GO:2" "b; c" (by decide) with ⟨L, h1, h2, h3, -, -⟩
  exact ⟨L, h1, h2, h3⟩

/-! ### Claim C3 -/

/-- C3: the preferred display symbol is the (stripped) first symbol whose
strip is non-empty, scanning the fixed provider order ensembl, uniprot,
ncbi; it is the empty string exactly when no provider's symbol has a
non-empty strip; and on (primary empty, secondary BRCA2, tertiary X) it is
BRCA2. -/
theorem c3_preferred_symbol (e u n : SourceRec) :
    (pyStrip e.symbol ≠ "" → _choose_preferred_symbol e u n = pyStrip e.symbol)
    ∧ (pyStrip e.symbol = "" → pyStrip u.symbol ≠ "" →
        _choose_preferred_symbol e u n = pyStrip u.symbol)
    ∧ (pyStrip e.symbol = "" → pyStrip u.symbol = "" → pyStrip n.symbol ≠ "" →
        _choose_preferred_symbol e u n = pyStrip n.symbol)
    ∧ (_choose_preferred_symbol e u n = "" ↔
        pyStrip e.symbol = "" ∧ pyStrip u.symbol = "" ∧ pyStrip n.symbol = "")
    ∧ _choose_preferred_symbol ⟨"", "", []⟩ ⟨"", "BRCA2", []⟩ ⟨"", "X", []⟩
        = "BRCA2" := by
  unfold _choose_preferred_symbol
  refine ⟨?_, ?_, ?_, ?_, by decide⟩
  · intro h1
    rw [if_pos h1]
  · intro h1 h2
    rw [if_neg (fun hc => hc h1), if_pos h2]
  · intro h1 h2 h3
    rw [if_neg (fun hc => hc h1), if_neg (fun hc => hc h2), if_pos h3]
  · constructor
    · intro hres
      by_cases h1 : pyStrip e.symbol ≠ ""
      · rw [if_pos h1] at hres
        exact absurd hres h1
      · by_cases h2 : pyStrip u.symbol ≠ ""
        · rw [if_neg h1, if_pos h2] at hres
          exact absurd hres h2
        · by_cases h3 : pyStrip n.symbol ≠ ""
          · rw [if_neg h1, if_neg h2, if_pos h3] at hres
            exact absurd hres h3
          · exact ⟨not_not.mp h1, not_not.mp h2, not_not.mp h3⟩
    · rintro ⟨h1, h2, h3⟩
      rw [if_neg (fun hc => hc h1), if_neg (fun hc => hc h2),
        if_neg (fun hc => hc h3)]

/-- Witness instantiating c3_preferred_symbol with an empty primary symbol
and secondary BRCA2. -/
theorem c3_preferred_symbol_witness :
    pyStrip ("" : String) = "" ∧ pyStrip ("BRCA2" : String) ≠ ""
    ∧ _choose_preferred_symbol ⟨"", "", []⟩ ⟨"", "BRCA2", []⟩ ⟨"", "X", []⟩
        = "BRCA2" := by
  refine ⟨by decide, by decide, ?_⟩
  have h := (c3_preferred_symbol ⟨"", "", []⟩ ⟨"", "BRCA2", []⟩ ⟨"", "X", []⟩).2.1
    (by decide) (by decide)
  rw [h]
  decide

/-! ### Claims C6 and C7 -/

theorem annotate_ok (env : Providers) (ids : List String)
    (h1 : ids ≠ []) (h2 : ids.length ≤ MAX_IDS) :
    annotate env ids = Except.ok
      { anns := (annotate_ensembl_ids env ids).anns.map build_compat_annot,
        gene_symbols := (annotate_ensembl_ids env ids).gene_symbols,
        go_ids := (annotate_ensembl_ids env ids).go_ids,
        count_input := (annotate_ensembl_ids env ids).count_input,
        count_processed := (annotate_ensembl_ids env ids).count_processed } := by
  unfold annotate
  rw [if_neg (by simp [List.isEmpty_iff, h1]), if_neg (Nat.not_lt.mpr h2)]

/-- C6 (amended): the endpoint rejects only a literally empty id list with
its no-ids ValidationError; a non-empty batch consisting solely of blank
(whitespace) identifiers passes validation and returns a normal
AnnotationBatch whose annotations list is empty and whose processed count
is zero. -/
theorem c6_blank_batch (env : Providers) (ids : List String) :
    (ids = [] → annotate env ids = Except.error AnnErr.noIds)
    ∧ (ids ≠ [] → ids.length ≤ MAX_IDS → (∀ x ∈ ids, pyStrip x = "") →
        annotate env ids = Except.ok
          { anns := [], gene_symbols := [], go_ids := [],
            count_input := ids.length, count_processed := 0 }) := by
  constructor
  · rintro rfl
    rfl
  · intro hne hlen hbl
    have hsan : sanitize_ids ids = [] := by
      unfold sanitize_ids
      have hfil : ids.filter (fun x => x != "" && pyStrip x != "") = [] := by
        rw [List.filter_eq_nil_iff]
        intro x hx
        simp [hbl x hx]
      rw [hfil]
      rfl
    have hres : annotate_ensembl_ids env ids =
        { anns := [], gene_symbols := [], go_ids := [],
          count_input := ids.length, count_processed := 0 } := by
      unfold annotate_ensembl_ids
      rw [hsan]
      rfl
    rw [annotate_ok env ids hne hlen, hres]
    rfl

/-- Counterexample to C6 as stated: a batch of one blank identifier (so 0
valid identifiers remain after trimming) passes the endpoint's validation,
which only rejects a literally empty id list, and yields an ok
AnnotationBatch with zero annotations instead of a ValidationError. -/
theorem c6_counterexample :
    annotate envErr [" "] = Except.ok
      { anns := [], gene_symbols := [], go_ids := [],
        count_input := 1, count_processed := 0 }
    ∧ isOkE (annotate envErr [" "]) = true := ⟨rfl, rfl⟩

/-- Witness instantiating c6_blank_batch on the blank batch of one
whitespace identifier. -/
theorem c6_blank_batch_witness :
    (([" "] : List String) ≠ []) ∧ (∀ x ∈ ([" "] : List String), pyStrip x = "")
    ∧ annotate envErr [" "] = Except.ok
        { anns := [], gene_symbols := [], go_ids := [],
          count_input := 1, count_processed := 0 } := by
  refine ⟨by decide, by decide, ?_⟩
  exact (c6_blank_batch envErr [" "]).2 (by decide) (by decide) (by decide)

/-- C7: the core batch function truncates the sanitized list to MAX_IDS
(200), so it never produces more than 200 annotations nor counts more than
200 processed identifiers; the endpoint rejects a raw list longer than 200
with its too-many ValidationError before any processing, and every ok
endpoint result carries at most 200 annotations. -/
theorem c7_batch_ceiling (env : Providers) (id_list : List String) :
    (annotate_ensembl_ids env id_list).anns.length ≤ MAX_IDS
    ∧ (annotate_ensembl_ids env id_list).count_processed ≤ MAX_IDS
    ∧ (MAX_IDS < id_list.length →
        annotate env id_list = Except.error AnnErr.tooMany)
    ∧ (∀ r, annotate env id_list = Except.ok r → r.anns.length ≤ MAX_IDS) := by
  have hlen : (sanitize_ids id_list).length ≤ MAX_IDS := by
    unfold sanitize_ids
    exact List.length_take_le _ _
  have hanns : (annotate_ensembl_ids env id_list).anns.length ≤ MAX_IDS := by
    show ((sanitize_ids id_list).map (annotateOne env)).length ≤ MAX_IDS
    rw [List.length_map]
    exact hlen
  refine ⟨hanns, hlen, ?_, ?_⟩
  · intro hbig
    unfold annotate
    have hne : ¬ (id_list.isEmpty = true) := by
      cases id_list
      · simp [MAX_IDS] at hbig
      · simp
    rw [if_neg hne, if_pos hbig]
  · intro r hr
    unfold annotate at hr
    by_cases h1 : id_list.isEmpty = true
    · rw [if_pos h1] at hr
      cases hr
    · rw [if_neg h1] at hr
      by_cases h2 : MAX_IDS < id_list.length
      · rw [if_pos h2] at hr
        cases hr
      · rw [if_neg h2] at hr
        injection hr with hrr
        subst hrr
        show ((annotate_ensembl_ids env id_list).anns.map build_compat_annot).length
          ≤ MAX_IDS
        rw [List.length_map]
        exact hanns

/-- Witness instantiating c7_batch_ceiling on a raw list of 201 entries. -/
theorem c7_batch_ceiling_witness :
    MAX_IDS < (List.replicate 201 "x").length
    ∧ annotate envErr (List.replicate 201 "x") = Except.error AnnErr.tooMany := by
  have hlt : MAX_IDS < (List.replicate 201 "x").length := by
    rw [List.length_replicate]
    decide
  exact ⟨hlt, (c7_batch_ceiling envErr (List.replicate 201 "x")).2.2.1 hlt⟩

/-! ### Claim C8 -/

/-- C8 (amended): the Ensembl extraction accepts an entry whenever GO
occurs as a substring of the uppercased dbname or display name (or the
dbname equals GENE_ONTOLOGY) and takes any truthy id without validating
the GO colon-digits shape; the UniProt extraction requires the
database/type field to equal GO case-insensitively and the id to start
with the GO: prefix case-insensitively; the NCBI extraction requires the
id to start with the literal prefix GO:; entries with falsy ids are
silently skipped everywhere. -/
theorem c8_adapter_acceptance :
    (∀ (items : List EnsemblXref) (q : String × String), q ∈ get_go_xrefs items →
      ∃ it ∈ items,
        (strContains (upperStr (optStr it.dbname)) "GO"
          || strContains (upperStr (optStr it.db_display_name)) "GO"
          || (upperStr (optStr it.dbname) == "GENE_ONTOLOGY")) = true
        ∧ ∃ gid, firstTruthyStr [it.primary_id, it.id, it.display_id] = some gid
            ∧ q.1 = pyStrip gid)
    ∧ (∀ (xrefs : List UniprotXref) (q : String × String),
        q ∈ get_go_terms_from_uniprot xrefs →
      ∃ x ∈ xrefs, ∃ gid, truthy x.id = some gid
        ∧ startsWithB (upperStr gid) "GO:" = true ∧ q.1 = pyStrip gid
        ∧ upperStr (optStr (firstTruthyStr [x.database, x.type])) = "GO")
    ∧ (∀ (comp func proc : List NcbiTerm) (q : String × String),
        q ∈ get_go_terms_from_ncbi comp func proc →
      startsWithB q.1 "GO:" = true ∧ ∃ t ∈ comp ++ func ++ proc, t.value = some q.1)
    := by
  have hfield : ∀ (terms : List NcbiTerm) (q : String × String), q ∈ ncbiField terms →
      startsWithB q.1 "GO:" = true ∧ ∃ t ∈ terms, t.value = some q.1 := by
    intro terms q hq
    unfold ncbiField at hq
    rcases List.mem_filterMap.mp hq with ⟨t, ht, hemit⟩
    rcases hv : t.value with _ | go_id
    · rw [hv] at hemit
      cases hemit
    · rw [hv] at hemit
      dsimp only at hemit
      by_cases hsw : startsWithB go_id "GO:" = true
      · rw [if_pos hsw] at hemit
        cases hemit
        exact ⟨hsw, t, ht, hv⟩
      · rw [if_neg hsw] at hemit
        cases hemit
  refine ⟨?_, ?_, ?_⟩
  · intro items q hq
    unfold get_go_xrefs at hq
    rcases List.mem_filterMap.mp hq with ⟨it, hit, hemit⟩
    dsimp only at hemit
    by_cases hcond : (strContains (upperStr (optStr it.dbname)) "GO"
        || strContains (upperStr (optStr it.db_display_name)) "GO"
        || (upperStr (optStr it.dbname) == "GENE_ONTOLOGY")) = true
    · rw [if_pos hcond] at hemit
      rcases hft : firstTruthyStr [it.primary_id, it.id, it.display_id] with _ | gid
      · rw [hft] at hemit
        cases hemit
      · rw [hft] at hemit
        dsimp only at hemit
        cases hemit
        exact ⟨it, hit, hcond, gid, hft, rfl⟩
    · rw [if_neg hcond] at hemit
      cases hemit
  · intro xrefs q hq
    unfold get_go_terms_from_uniprot at hq
    rcases List.mem_filterMap.mp hq with ⟨x, hx, hemit⟩
    dsimp only at hemit
    by_cases hdb : upperStr (optStr (firstTruthyStr [x.database, x.type])) = "GO"
    · rw [if_pos hdb] at hemit
      rcases htr : truthy x.id with _ | gid
      · rw [htr] at hemit
        cases hemit
      · rw [htr] at hemit
        dsimp only at hemit
        by_cases hsw : startsWithB (upperStr gid) "GO:" = true
        · rw [if_pos hsw] at hemit
          cases hemit
          exact ⟨x, hx, gid, htr, hsw, rfl, hdb⟩
        · rw [if_neg hsw] at hemit
          cases hemit
    · rw [if_neg hdb] at hemit
      cases hemit
  · intro comp func proc q hq
    unfold get_go_terms_from_ncbi at hq
    rcases List.mem_append.mp hq with hq2 | hq3
    · rcases List.mem_append.mp hq2 with hqc | hqf
      · rcases hfield comp q hqc with ⟨hsw, t, ht, hv⟩
        exact ⟨hsw, t, by simp [ht], hv⟩
      · rcases hfield func q hqf with ⟨hsw, t, ht, hv⟩
        exact ⟨hsw, t, by simp [ht], hv⟩
    · rcases hfield proc q hq3 with ⟨hsw, t, ht, hv⟩
      exact ⟨hsw, t, by simp [ht], hv⟩

/-- Counterexample to C8 as stated: an Ensembl xref whose dbname GOA only
contains GO as a substring (it does not case-insensitively equal the GO
marker) and whose id XP_123 does not match the GO colon-digits shape is
accepted, so a ProviderRecord can carry a term id that does not match the
required pattern. -/
theorem c8_counterexample :
    get_go_xrefs [⟨some "GOA", none, some "XP_123", none, none, some "d"⟩]
      = [("XP_123", "d")]
    ∧ goShape "XP_123" = false
    ∧ (upperStr "GOA" == "GO") = false := by decide

/-- Witness instantiating c8_adapter_acceptance on a concrete NCBI term
list. -/
theorem c8_adapter_acceptance_witness :
    (("GO:5", "x") ∈ get_go_terms_from_ncbi [⟨some "GO:5", some "x"⟩] [] [])
    ∧ startsWithB "GO:5" "GO:" = true := by
  refine ⟨by decide, ?_⟩
  exact (c8_adapter_acceptance.2.2 [⟨some "GO:5", some "x"⟩] [] []
    ("GO:5", "x") (by decide)).1

/-! ### Claim C9 -/

/-- C9 (amended): the secondary-provider cross-reference first attempts the
direct idmapping of the identifier; when that yields nothing it falls back
to the four fixed search queries built from the identifier itself (not
from the symbol or organism of step 1), in order, and it returns no native
key exactly when the direct mapping and all four identifier-based searches
fail. -/
theorem c9_crossref_strategy (idmapping search : String → Option String)
    (e : String) (he : e ≠ "") :
    (∀ c, truthy (idmapping e) = some c →
      get_uniprot_id_from_ensembl idmapping search e = some c)
    ∧ (truthy (idmapping e) = none →
      get_uniprot_id_from_ensembl idmapping search e =
        firstSomeStr ((uniprot_search_queries e).map (fun q => truthy (search q))))
    ∧ (get_uniprot_id_from_ensembl idmapping search e = none ↔
      truthy (idmapping e) = none
        ∧ ∀ q ∈ uniprot_search_queries e, truthy (search q) = none) := by
  have hguard : ¬ (ENABLE_UNIPROT_FALLBACK = false ∨ e = "") := by
    rintro (h | h)
    · simp [ENABLE_UNIPROT_FALLBACK] at h
    · exact he h
  unfold get_uniprot_id_from_ensembl
  rw [if_neg hguard]
  refine ⟨?_, ?_, ?_⟩
  · intro c hc
    rw [hc]
  · intro hc
    rw [hc]
  · rcases hc : truthy (idmapping e) with _ | c
    · dsimp only
      constructor
      · intro h
        refine ⟨rfl, fun q hq => ?_⟩
        exact (firstSomeStr_eq_none_iff _).mp h _ (List.mem_map_of_mem _ hq)
      · rintro ⟨-, hall⟩
        rw [firstSomeStr_eq_none_iff]
        intro o ho
        rcases List.mem_map.mp ho with ⟨q, hq, rfl⟩
        exact hall q hq
    · dsimp only
      constructor
      · intro h
        cases h
      · rintro ⟨h, -⟩
        exact h

/-- Counterexample to C9 as stated: with the direct mapping failing and a
search oracle that succeeds exactly on the symbol-based query gene:TP53
(the symbol obtained from the primary provider in step 1), the fallback
still returns nothing — none of the queries it issues mentions the
symbol, they are all built from the identifier. -/
theorem c9_counterexample :
    get_uniprot_id_from_ensembl (fun _ => none)
      (fun q => if q = "gene:TP53" then some "P04637" else none)
      "ENSG00000141510" = none
    ∧ "gene:TP53" ∉ uniprot_search_queries "ENSG00000141510" := by decide

/-- Witness instantiating c9_crossref_strategy: a successful direct
idmapping short-circuits the search fallback. -/
theorem c9_crossref_strategy_witness :
    truthy (some "U1") = some "U1"
    ∧ get_uniprot_id_from_ensembl (fun _ => some "U1") (fun _ => none) "E1"
        = some "U1" := by
  refine ⟨rfl, ?_⟩
  exact (c9_crossref_strategy (fun _ => some "U1") (fun _ => none) "E1"
    (by decide)).1 "U1" rfl

/-! ### Claim C10 -/

/-- C10: every annotation of the compatibility view returned by the
endpoint has go_ids equal to the merged go_ids of its embedded annotation,
go_terms computed pointwise from go_ids by looking the id up in the merged
descriptions with default empty string (hence parallel: equal length), a
gene_symbol given by the preferred-symbol scan, and the embedded
sources/merged annotation is unchanged: it is exactly one of the core
result's annotations. -/
theorem c10_compat_parallel (env : Providers) (ids : List String)
    (ca : CompatAnnot) (hca : ca ∈ compatAnnsOf (annotate env ids)) :
    ca.go_ids = ca.ann.merged_go_ids
    ∧ ca.go_terms = ca.go_ids.map
        (fun gid => optStr (lookupA gid ca.ann.merged_go_descriptions))
    ∧ ca.go_terms.length = ca.go_ids.length
    ∧ ca.gene_symbol =
        _choose_preferred_symbol ca.ann.ensembl ca.ann.uniprot ca.ann.ncbi
    ∧ ca.ann ∈ (annotate_ensembl_ids env ids).anns := by
  unfold annotate at hca
  by_cases h1 : ids.isEmpty = true
  · rw [if_pos h1] at hca
    simp [compatAnnsOf] at hca
  · rw [if_neg h1] at hca
    by_cases h2 : MAX_IDS < ids.length
    · rw [if_pos h2] at hca
      simp [compatAnnsOf] at hca
    · rw [if_neg h2] at hca
      have hca2 : ca ∈ ((annotate_ensembl_ids env ids).anns).map build_compat_annot :=
        hca
      rcases List.mem_map.mp hca2 with ⟨a, haa, rfl⟩
      refine ⟨rfl, rfl, ?_, rfl, haa⟩
      show (a.merged_go_ids.map
        (fun gid => optStr (lookupA gid a.merged_go_descriptions))).length
        = a.merged_go_ids.length
      rw [List.length_map]

/-- Witness instantiating c10_compat_parallel on envDemo. -/
theorem c10_compat_parallel_witness :
    (build_compat_annot (annotateOne envDemo "E1") ∈
      compatAnnsOf (annotate envDemo ["E1"]))
    ∧ (build_compat_annot (annotateOne envDemo "E1")).go_terms.length =
        (build_compat_annot (annotateOne envDemo "E1")).go_ids.length := by
  refine ⟨by decide, ?_⟩
  exact (c10_compat_parallel envDemo ["E1"]
    (build_compat_annot (annotateOne envDemo "E1")) (by decide)).2.2.1

end EnsemblAnnot
